import Mathlib

/-
Verification of the LighterScalper order-submission and risk/state
reconciliation core against its natural-language specification.

The Lean definitions below are a shallow embedding of the Python source:
  - src/src/order_manager.py  (Order, Position, OrderManager.sync_with_exchange)
  - src/src/client.py         (LighterClient retry loops and order-lock timing)
  - src/utils/risk.py         (RiskManager)
  - src/strategies/base.py    (StrategyState, cooldown logic)
  - src/main.py               (LighterScalperBot.shutdown position-close loop)

Python Decimal values are modelled as exact rationals (all constants in the
source are exactly representable); wall-clock timestamps are modelled as
explicit rational time parameters; the asyncio order lock is modelled by
sequential composition of critical sections.
-/

set_option autoImplicit false

namespace LighterScalper

/-! ### Order model (src/src/order_manager.py) -/

/-- OrderStatus enum from order_manager.py. The Python member `OPEN` is
rendered `opened` because `open` is a Lean keyword. -/
inductive OrderStatus where
  | pending
  | opened
  | filled
  | partially_filled
  | cancelled
  | rejected
deriving DecidableEq

inductive OrderSide where
  | buy
  | sell
deriving DecidableEq

/-- Order dataclass. The `created_at` / `updated_at` timestamps are omitted:
they are write-only metadata that no claim reads. -/
structure Order where
  order_id : String
  market_id : Int
  side : OrderSide
  price : Rat
  size : Rat
  filled_size : Rat
  status : OrderStatus
  strategy : String
  is_post_only : Bool
deriving DecidableEq

/-- Order.is_active property: status in [PENDING, OPEN, PARTIALLY_FILLED]. -/
def Order.is_active (o : Order) : Bool :=
  o.status = OrderStatus.pending ∨ o.status = OrderStatus.opened ∨
    o.status = OrderStatus.partially_filled

/-- Position dataclass from order_manager.py. -/
structure Position where
  market_id : Int
  side : OrderSide
  size : Rat
  entry_price : Rat
  unrealized_pnl : Rat
  realized_pnl : Rat
  liquidation_price : Option Rat
deriving DecidableEq

/-! ### Ledger order reconciliation (OrderManager.sync_with_exchange)

The `orders` dict is modelled as an association list keyed by order id;
`lookupOrder` is dict lookup. An exchange-reported open order
(one element of `client.get_open_orders()`) is an `OrderData`. -/

/-- One order record reported by the exchange in `get_open_orders()`. -/
structure OrderData where
  order_id : String
  market_id : Int
  side : String
  price : Rat
  size : Rat
  filled_size : Rat
deriving DecidableEq

/-- Python `str.lower()`, written as a character-by-character map so that
it evaluates by kernel reduction. -/
def strLower (s : String) : String :=
  String.mk (s.toList.map Char.toLower)

def lookupOrder : List (String × Order) → String → Option Order
  | [], _ => none
  | (k, o) :: rest, id => if k = id then some o else lookupOrder rest id

/-- Rewrite every value of the map in place, keeping keys. -/
def mapVals (g : String → Order → Order) (m : List (String × Order)) :
    List (String × Order) :=
  m.map fun p => (p.1, g p.1 p.2)

/-- Order inserted for an exchange-reported id not yet tracked locally
(sync_with_exchange, "New order from exchange" branch). -/
def orderFromData (d : OrderData) : Order :=
  { order_id := d.order_id
    market_id := d.market_id
    side := if strLower d.side = "buy" then OrderSide.buy else OrderSide.sell
    price := d.price
    size := d.size
    filled_size := d.filled_size
    status := OrderStatus.opened
    strategy := ""
    is_post_only := true }

/-- Refresh of an already-tracked order from exchange data
(sync_with_exchange, "Update existing order" branch). -/
def refreshOrder (d : OrderData) (o : Order) : Order :=
  { o with filled_size := d.filled_size, status := OrderStatus.opened }

/-- Merge one exchange-reported order into the orders map. -/
def applyOrderData (m : List (String × Order)) (d : OrderData) :
    List (String × Order) :=
  match lookupOrder m d.order_id with
  | none => m ++ [(d.order_id, orderFromData d)]
  | some _ => mapVals (fun k o => if k = d.order_id then refreshOrder d o else o) m

/-- The `exchange_order_ids` set collected during the merge loop. -/
def exchangeIds (data : List OrderData) : List String :=
  data.map OrderData.order_id

/-- Finalization of a locally-active order absent from the exchange listing
(sync_with_exchange, "Mark orders not on exchange as filled/cancelled"). -/
def finalizeOrder (ids : List String) (id : String) (o : Order) : Order :=
  if o.is_active = true ∧ id ∉ ids then
    if o.filled_size > 0 then { o with status := OrderStatus.filled }
    else { o with status := OrderStatus.cancelled }
  else o

/-- The order-synchronization phase of `OrderManager.sync_with_exchange`:
merge every reported open order, then finalize locally-active orders that
the exchange no longer reports. -/
def syncOrders (m : List (String × Order)) (data : List OrderData) :
    List (String × Order) :=
  mapVals (finalizeOrder (exchangeIds data)) (data.foldl applyOrderData m)

/-- A whole run of reconciliation passes. -/
def syncAll (m : List (String × Order)) (ps : List (List OrderData)) :
    List (String × Order) :=
  ps.foldl syncOrders m

/-- The ledger invariant of the spec: filled_size never exceeds size. -/
def ledgerInv (m : List (String × Order)) : Prop :=
  ∀ id o, lookupOrder m id = some o → o.filled_size ≤ o.size

/-- An exchange-reported order is consistent with the map it is merged into:
its filled_size does not exceed the size it will be recorded against
(the locally-stored size for a known id, its own reported size otherwise). -/
abbrev datumOK (m : List (String × Order)) (d : OrderData) : Prop :=
  d.filled_size ≤ (((lookupOrder m d.order_id).map Order.size).getD d.size)

/-- Well-formedness of one reconciliation pass's exchange data. -/
abbrev passOK (m : List (String × Order)) (data : List OrderData) : Prop :=
  (data.map OrderData.order_id).Nodup ∧ ∀ d ∈ data, datumOK m d

/-- Well-formedness of a sequence of passes, each relative to the ledger
state it encounters. -/
def passesOK : List (String × Order) → List (List OrderData) → Prop
  | _, [] => True
  | m, p :: ps => passOK m p ∧ passesOK (syncOrders m p) ps

/-! ### Shutdown position-close loop (src/main.py, LighterScalperBot.shutdown) -/

/-- Argument record of an `OrderManager.place_market_order` call. -/
structure MarketOrderRequest where
  market_id : Int
  side : OrderSide
  size : Rat
  strategy : String
  reduce_only : Bool
deriving DecidableEq

/-- The close side computed into the local variable `side` in
`shutdown`: `"sell" if pos.side.value == "buy" else "buy"`. -/
def closeSideFor (pos : Position) : OrderSide :=
  if pos.side = OrderSide.buy then OrderSide.sell else OrderSide.buy

/-- The market-close requests actually issued by `shutdown` for the
remaining positions. The source computes the opposite side into a local
variable `side` but passes `side=pos.side` to `place_market_order`, so the
submitted side is the position's own side; this definition records the
arguments as passed. -/
def shutdownCloseRequests (positions : List Position) : List MarketOrderRequest :=
  positions.map fun pos =>
    { market_id := pos.market_id
      side := pos.side
      size := pos.size
      strategy := "shutdown"
      reduce_only := true }

/-! ### Submission retry loops (src/src/client.py) -/

/-- Error classification from the retry loops:
`"invalid nonce" in error_str.lower() or "21104" in error_str`. -/
def isNonceError (e : String) : Bool :=
  decide ("invalid nonce".toList <:+: (strLower e).toList) ||
    decide ("21104".toList <:+: e.toList)

/-- Outcome of one `signer_client` call attempt: the result tuple has the
transaction in slot 1 (success), an error message in slot 2 (rejected),
or the call raises an exception. -/
inductive ExchangeOutcome where
  | success (tx : String)
  | rejected (msg : String)
  | empty
  | raised (err : String)
deriving DecidableEq

instance : DecidableEq (Except String (Option String)) := fun a b =>
  match a, b with
  | Except.ok x, Except.ok y =>
    if h : x = y then Decidable.isTrue (h ▸ rfl)
    else Decidable.isFalse fun hEq => h (Except.ok.inj hEq)
  | Except.error x, Except.error y =>
    if h : x = y then Decidable.isTrue (h ▸ rfl)
    else Decidable.isFalse fun hEq => h (Except.error.inj hEq)
  | Except.ok _, Except.error _ => Decidable.isFalse fun hEq => Except.noConfusion hEq
  | Except.error _, Except.ok _ => Decidable.isFalse fun hEq => Except.noConfusion hEq

/-- What a whole `create_limit_order` / `create_market_order` call did:
its return value (`Except.error` would be an exception propagating to the
caller, `Except.ok none` is a Python `return None`), the number of exchange
call attempts made, and the backoff sleeps performed between attempts. -/
structure SubmitTrace where
  result : Except String (Option String)
  attempts : Nat
  sleeps : List Rat
deriving DecidableEq

/-- The retry loop shared by `create_limit_order` (3 attempts, retry sleep
`1.0 * (attempt + 1)`, retry only while `attempt < 2`) and
`create_market_order` (5 attempts, sleep `1.5 * (attempt + 1)`, retry while
`attempt < 4`). The k-th list element is the outcome the exchange would
give the k-th attempt. Every non-retried branch executes `return None`
or returns the result dict; no branch re-raises. -/
def retryFromAttempt (backoff_base : Rat) (last_retry_attempt : Nat) :
    List ExchangeOutcome → Nat → SubmitTrace
  | [], _ => ⟨Except.ok none, 0, []⟩
  | o :: rest, attempt =>
    match o with
    | ExchangeOutcome.success tx => ⟨Except.ok (some tx), 1, []⟩
    | ExchangeOutcome.rejected _ => ⟨Except.ok none, 1, []⟩
    | ExchangeOutcome.empty => ⟨Except.ok none, 1, []⟩
    | ExchangeOutcome.raised err =>
      if isNonceError err = true ∧ attempt < last_retry_attempt then
        let t := retryFromAttempt backoff_base last_retry_attempt rest (attempt + 1)
        ⟨t.result, t.attempts + 1, backoff_base * ((attempt : Rat) + 1) :: t.sleeps⟩
      else ⟨Except.ok none, 1, []⟩

/-- The run of `LighterClient.create_limit_order`: `for attempt in range(3)`, retry on
nonce errors while `attempt < 2`, backoff `1.0 * (attempt + 1)`. -/
def create_limit_order_run (outs : List ExchangeOutcome) : SubmitTrace :=
  retryFromAttempt 1 2 (outs.take 3) 0

/-- The run of `LighterClient.create_market_order`: `for attempt in range(5)`, retry on
nonce errors while `attempt < 4`, backoff `1.5 * (attempt + 1)`. -/
def create_market_order_run (outs : List ExchangeOutcome) : SubmitTrace :=
  retryFromAttempt (3 / 2) 4 (outs.take 5) 0

/-! ### Order-lock critical-section timing (client.py submission paths)

Inside `async with self._order_lock`, each attempt reads the clock, sleeps
until at least `_min_order_interval = 0.5` seconds have passed since
`_last_order_time`, performs the exchange call, and writes
`_last_order_time = time.time()` after the call returns. If the call
raises, the write is skipped (the exception jumps to the except handler). -/

structure GateState where
  last_order_time : Rat
deriving DecidableEq

inductive CallResult where
  | returned
  | raised
deriving DecidableEq

/-- Timing record of one attempt's critical section: when its exchange call
began and ended, the gate state on exit, and how many times the attempt
wrote `_last_order_time`. -/
structure AttemptTiming where
  begin_call : Rat
  end_call : Rat
  state : GateState
  updates : Nat
deriving DecidableEq

/-- One attempt's critical section, entered at `acquire_time` (the lock is
held from then on) with an exchange call lasting `call_duration`. -/
def criticalSection (s : GateState) (acquire_time call_duration : Rat)
    (res : CallResult) : AttemptTiming :=
  let begin_call :=
    if acquire_time - s.last_order_time < 1 / 2 then s.last_order_time + 1 / 2
    else acquire_time
  let end_call := begin_call + call_duration
  match res with
  | CallResult.returned => ⟨begin_call, end_call, ⟨end_call⟩, 1⟩
  | CallResult.raised => ⟨begin_call, end_call, s, 0⟩

/-! ### Risk manager (src/utils/risk.py) -/

/-- The TradingConfig fields the risk and cooldown logic reads
(config.py; the remaining fields parameterize strategies only). -/
structure TradingConfig where
  max_position_usd : Rat
  max_loss_usd : Rat
  default_leverage : Rat
  max_leverage : Rat
  max_consecutive_losses : Nat
  cooldown_after_loss_seconds : Rat
deriving DecidableEq

/-- config.py TradingConfig dataclass defaults. -/
def defaultTradingConfig : TradingConfig :=
  { max_position_usd := 25
    max_loss_usd := 10
    default_leverage := 2
    max_leverage := 3
    max_consecutive_losses := 3
    cooldown_after_loss_seconds := 60 }

structure RiskMetrics where
  total_equity : Rat
  total_exposure : Rat
  unrealized_pnl : Rat
  realized_pnl : Rat
  daily_pnl : Rat
  max_drawdown : Rat
  exposure_pct : Rat
deriving DecidableEq

/-- Structured rendering of the `_stop_reason` strings set by
`_check_stop_conditions` and `force_stop`. -/
inductive StopReason where
  | maxLoss (total_loss max_loss : Rat)
  | maxDrawdown (drawdown : Rat)
  | forced (reason : String)
deriving DecidableEq

structure RiskManager where
  config : TradingConfig
  initial_capital : Rat
  metrics : RiskMetrics
  peak_equity : Rat
  daily_start_equity : Rat
  is_stopped : Bool
  stop_reason : Option StopReason
deriving DecidableEq

/-- RiskManager.__init__. -/
def initRiskManager (config : TradingConfig) (initial_capital : Rat) :
    RiskManager :=
  { config := config
    initial_capital := initial_capital
    metrics :=
      { total_equity := initial_capital
        total_exposure := 0
        unrealized_pnl := 0
        realized_pnl := 0
        daily_pnl := 0
        max_drawdown := 0
        exposure_pct := 0 }
    peak_equity := initial_capital
    daily_start_equity := initial_capital
    is_stopped := false
    stop_reason := none }

/-- RiskManager._check_stop_conditions: the max-loss check, then the
max-drawdown (50%) check; each sets `_is_stopped` and overwrites
`_stop_reason`. -/
def check_stop_conditions (r : RiskManager) : RiskManager :=
  let total_loss := r.initial_capital - r.metrics.total_equity
  let max_loss := r.config.max_loss_usd
  let r1 :=
    if total_loss ≥ max_loss then
      { r with is_stopped := true
               stop_reason := some (StopReason.maxLoss total_loss max_loss) }
    else r
  if r1.metrics.max_drawdown ≥ 50 then
    { r1 with is_stopped := true
              stop_reason := some (StopReason.maxDrawdown r1.metrics.max_drawdown) }
  else r1

/-- RiskManager.update_metrics. -/
def update_metrics (r : RiskManager) (equity exposure unrealized_pnl realized_pnl : Rat) :
    RiskManager :=
  let m :=
    { r.metrics with
        total_equity := equity
        total_exposure := exposure
        unrealized_pnl := unrealized_pnl
        realized_pnl := realized_pnl
        daily_pnl := equity - r.daily_start_equity }
  let m := if equity > 0 then { m with exposure_pct := exposure / equity * 100 } else m
  let peak := if equity > r.peak_equity then equity else r.peak_equity
  let m :=
    if peak > 0 then
      let current_drawdown := (peak - equity) / peak * 100
      if current_drawdown > m.max_drawdown then { m with max_drawdown := current_drawdown }
      else m
    else m
  check_stop_conditions { r with metrics := m, peak_equity := peak }

def is_trading_allowed (r : RiskManager) : Bool :=
  !r.is_stopped

/-- RiskManager.resume_trading. -/
def resume_trading (r : RiskManager) : RiskManager :=
  if r.is_stopped = true then { r with is_stopped := false, stop_reason := none }
  else r

/-- A sequence of update_metrics calls, each argument tuple being
(equity, exposure, unrealized_pnl, realized_pnl). -/
def applyUpdates (r : RiskManager) (us : List (Rat × Rat × Rat × Rat)) : RiskManager :=
  us.foldl (fun r u => update_metrics r u.1 u.2.1 u.2.2.1 u.2.2.2) r

/-- Round-half-even integer rounding, the default rounding of Python
`Decimal.quantize`. -/
def roundHalfEven (x : Rat) : Int :=
  let f := ⌊x⌋
  let frac := x - f
  if frac < 1 / 2 then f
  else if 1 / 2 < frac then f + 1
  else if 2 ∣ f then f else f + 1

/-- Python `Decimal.quantize(Decimal("0.0001"))` with the default context. -/
def quantize4 (x : Rat) : Rat :=
  (roundHalfEven (x * 10000) : Rat) / 10000

/-- RiskManager.calculate_safe_size (the `side` argument is unused in the
source as well). -/
def calculate_safe_size (r : RiskManager) (price : Rat) (_side : String) : Rat :=
  if r.is_stopped = true ∨ price ≤ 0 then 0
  else
    let available := r.metrics.total_equity - r.metrics.total_exposure
    let max_pos_usd :=
      min r.config.max_position_usd (available * r.config.default_leverage * (1 / 2))
    let size := max_pos_usd / price
    let min_size : Rat := 1 / 10000
    if size < min_size then 0 else quantize4 size

/-! ### Strategy cooldown state machine (src/strategies/base.py) -/

/-- StrategyState dataclass (the fields the cooldown logic touches;
`name` and `last_trade_time` are identification/logging metadata). -/
structure StrategyState where
  enabled : Bool
  trades_count : Nat
  wins : Nat
  losses : Nat
  total_pnl : Rat
  consecutive_losses : Nat
  in_cooldown : Bool
  cooldown_until : Option Rat
deriving DecidableEq

/-- BaseStrategy.record_trade_result, with `datetime.now()` passed in as
`now`. -/
def record_trade_result (cfg : TradingConfig) (s : StrategyState) (pnl now : Rat) :
    StrategyState :=
  let s := { s with total_pnl := s.total_pnl + pnl }
  if pnl > 0 then
    { s with wins := s.wins + 1, consecutive_losses := 0 }
  else
    let s := { s with losses := s.losses + 1
                      consecutive_losses := s.consecutive_losses + 1 }
    if s.consecutive_losses ≥ cfg.max_consecutive_losses then
      { s with in_cooldown := true, cooldown_until := some now }
    else s

/-- BaseStrategy.is_enabled, with `datetime.now()` passed in as `now`.
Returns the boolean answer and the possibly-updated state (the method
clears the cooldown in place once the duration has elapsed). -/
def is_enabled (cfg : TradingConfig) (s : StrategyState) (now : Rat) :
    Bool × StrategyState :=
  if s.enabled = false then (false, s)
  else if s.in_cooldown = true then
    match s.cooldown_until with
    | some t =>
      if now - t ≥ cfg.cooldown_after_loss_seconds then
        (true, { s with in_cooldown := false, consecutive_losses := 0 })
      else (false, s)
    | none => (true, s)
  else (true, s)

/-! ### Spec-side definitions used to compare code against claim wording -/

/-- The safe-size formula exactly as claim C7 words it:
`((equity − exposure) × default leverage × 0.5) / price`, floored at the
minimum viable size (zero below it) — without the `max_position_usd` cap
that the source applies. -/
def claimedSafeSize (r : RiskManager) (price : Rat) : Rat :=
  let size := (r.metrics.total_equity - r.metrics.total_exposure) *
      r.config.default_leverage * (1 / 2) / price
  if size < 1 / 10000 then 0 else size

/-- A partially filled open order used as a concrete reconciliation input. -/
def zOrder : Order :=
  { order_id := "Z"
    market_id := 0
    side := OrderSide.buy
    price := 10
    size := 1
    filled_size := 1 / 2
    status := OrderStatus.opened
    strategy := ""
    is_post_only := true }

/-! ### Ledger lookup lemmas -/

theorem lookup_mapVals (g : String → Order → Order) (m : List (String × Order))
    (id : String) :
    lookupOrder (mapVals g m) id = (lookupOrder m id).map (g id) := by
  induction m with
  | nil => rfl
  | cons p rest ih =>
    obtain ⟨k, o⟩ := p
    by_cases h : k = id
    · subst h; simp [mapVals, lookupOrder]
    · simp only [mapVals, lookupOrder, List.map_cons, if_neg h]
      exact ih

theorem lookup_append_of_ne (m : List (String × Order)) (k : String) (o : Order)
    (id : String) (hne : k ≠ id) :
    lookupOrder (m ++ [(k, o)]) id = lookupOrder m id := by
  induction m with
  | nil => simp [lookupOrder, hne]
  | cons p rest ih =>
    obtain ⟨k', o'⟩ := p
    by_cases h : k' = id
    · simp [lookupOrder, h]
    · simp [lookupOrder, h, ih]

theorem lookup_append_self (m : List (String × Order)) (k : String) (o : Order)
    (hnone : lookupOrder m k = none) :
    lookupOrder (m ++ [(k, o)]) k = some o := by
  induction m with
  | nil => simp [lookupOrder]
  | cons p rest ih =>
    obtain ⟨k', o'⟩ := p
    by_cases h : k' = k
    · simp [lookupOrder, h] at hnone
    · simp [lookupOrder, h] at hnone ⊢
      exact ih hnone

theorem lookup_applyOrderData_ne (m : List (String × Order)) (d : OrderData)
    (id : String) (hne : d.order_id ≠ id) :
    lookupOrder (applyOrderData m d) id = lookupOrder m id := by
  unfold applyOrderData
  cases h : lookupOrder m d.order_id with
  | none => exact lookup_append_of_ne m d.order_id (orderFromData d) id hne
  | some o =>
    rw [lookup_mapVals]
    cases lookupOrder m id <;> simp [Ne.symm hne]

theorem lookup_applyOrderData_self (m : List (String × Order)) (d : OrderData) :
    lookupOrder (applyOrderData m d) d.order_id =
      some (((lookupOrder m d.order_id).map (refreshOrder d)).getD (orderFromData d)) := by
  unfold applyOrderData
  cases h : lookupOrder m d.order_id with
  | none => simp [lookup_append_self m d.order_id (orderFromData d) h]
  | some o => rw [lookup_mapVals, h]; simp

theorem ledgerInv_applyOrderData (m : List (String × Order)) (d : OrderData)
    (hm : ledgerInv m) (hd : datumOK m d) :
    ledgerInv (applyOrderData m d) := by
  intro id o hlook
  have hd' : d.filled_size ≤ ((lookupOrder m d.order_id).map Order.size).getD d.size := hd
  by_cases hid : d.order_id = id
  · subst hid
    rw [lookup_applyOrderData_self m d] at hlook
    cases h : lookupOrder m d.order_id with
    | none =>
      rw [h] at hlook
      simp only [Option.map_none', Option.getD_none, Option.some.injEq] at hlook
      rw [h] at hd'
      simp only [Option.map_none', Option.getD_none] at hd'
      subst hlook
      simpa [orderFromData] using hd'
    | some o₀ =>
      rw [h] at hlook
      simp only [Option.map_some', Option.getD_some, Option.some.injEq] at hlook
      rw [h] at hd'
      simp only [Option.map_some', Option.getD_some] at hd'
      subst hlook
      simpa [refreshOrder] using hd'
  · rw [lookup_applyOrderData_ne m d id hid] at hlook
    exact hm id o hlook

theorem ledgerInv_foldl (data : List OrderData) :
    ∀ m : List (String × Order), ledgerInv m → (∀ d ∈ data, datumOK m d) →
      (data.map OrderData.order_id).Nodup →
      ledgerInv (data.foldl applyOrderData m) := by
  induction data with
  | nil => intro m hm _ _; simpa using hm
  | cons d rest ih =>
    intro m hm hds hnd
    simp only [List.map_cons, List.nodup_cons] at hnd
    simp only [List.foldl_cons]
    apply ih (applyOrderData m d)
    · exact ledgerInv_applyOrderData m d hm (hds d (by simp))
    · intro d' hd'
      have hne : d.order_id ≠ d'.order_id := by
        intro hcontra
        exact hnd.1 (hcontra ▸ List.mem_map_of_mem OrderData.order_id hd')
      have hbase := hds d' (List.mem_cons_of_mem d hd')
      unfold datumOK at hbase ⊢
      rw [lookup_applyOrderData_ne m d d'.order_id hne]
      exact hbase
    · exact hnd.2

theorem finalizeOrder_size (ids : List String) (id : String) (o : Order) :
    (finalizeOrder ids id o).size = o.size := by
  unfold finalizeOrder; split_ifs <;> rfl

theorem finalizeOrder_filled_size (ids : List String) (id : String) (o : Order) :
    (finalizeOrder ids id o).filled_size = o.filled_size := by
  unfold finalizeOrder; split_ifs <;> rfl

theorem ledgerInv_syncOrders (m : List (String × Order)) (data : List OrderData)
    (hm : ledgerInv m) (hp : passOK m data) :
    ledgerInv (syncOrders m data) := by
  unfold syncOrders
  intro id o hlook
  rw [lookup_mapVals] at hlook
  cases h : lookupOrder (data.foldl applyOrderData m) id with
  | none => rw [h] at hlook; simp at hlook
  | some o₀ =>
    rw [h] at hlook
    simp only [Option.map_some', Option.some.injEq] at hlook
    have hbase := ledgerInv_foldl data m hm hp.2 hp.1 id o₀ h
    rw [← hlook, finalizeOrder_size, finalizeOrder_filled_size]
    exact hbase

theorem ledgerInv_syncAll :
    ∀ (ps : List (List OrderData)) (m : List (String × Order)),
      ledgerInv m → passesOK m ps → ledgerInv (syncAll m ps) := by
  intro ps
  induction ps with
  | nil => intro m hm _; simpa [syncAll] using hm
  | cons p rest ih =>
    intro m hm hps
    simp only [syncAll, List.foldl_cons]
    exact ih (syncOrders m p) (ledgerInv_syncOrders m p hm hps.1) hps.2

theorem passesOK_append :
    ∀ (ps₁ ps₂ : List (List OrderData)) (m : List (String × Order)),
      passesOK m (ps₁ ++ ps₂) → passesOK m ps₁ := by
  intro ps₁
  induction ps₁ with
  | nil => intro ps₂ m _; trivial
  | cons p rest ih => intro ps₂ m h; exact ⟨h.1, ih ps₂ (syncOrders m p) h.2⟩

theorem lookup_foldl_applyOrderData_not_reported (data : List OrderData) :
    ∀ (m : List (String × Order)) (id : String), (∀ d ∈ data, d.order_id ≠ id) →
      lookupOrder (data.foldl applyOrderData m) id = lookupOrder m id := by
  induction data with
  | nil => intro m id _; rfl
  | cons d rest ih =>
    intro m id h
    simp only [List.foldl_cons]
    rw [ih (applyOrderData m d) id (fun d' hd' => h d' (List.mem_cons_of_mem d hd'))]
    exact lookup_applyOrderData_ne m d id (h d (by simp))

/-! ### Risk manager lemmas -/

theorem update_metrics_eq (r : RiskManager) (e x u p : Rat) :
    ∃ r' : RiskManager, update_metrics r e x u p = check_stop_conditions r' ∧
      r'.is_stopped = r.is_stopped :=
  ⟨_, rfl, rfl⟩

theorem check_stop_metrics (r : RiskManager) :
    (check_stop_conditions r).metrics = r.metrics := by
  simp only [check_stop_conditions]
  split_ifs <;> rfl

theorem check_stop_stopped_of_drawdown (r : RiskManager)
    (h : 50 ≤ r.metrics.max_drawdown) :
    (check_stop_conditions r).is_stopped = true := by
  simp only [check_stop_conditions]
  split_ifs <;> simp_all

theorem check_stop_sticky (r : RiskManager) (h : r.is_stopped = true) :
    (check_stop_conditions r).is_stopped = true := by
  simp only [check_stop_conditions]
  split_ifs <;> simp_all

theorem update_metrics_stopped_of_drawdown (r : RiskManager) (e x u p : Rat)
    (h : 50 ≤ (update_metrics r e x u p).metrics.max_drawdown) :
    (update_metrics r e x u p).is_stopped = true := by
  obtain ⟨r', hEq, _⟩ := update_metrics_eq r e x u p
  rw [hEq] at h ⊢
  rw [check_stop_metrics] at h
  exact check_stop_stopped_of_drawdown r' h

theorem update_metrics_sticky (r : RiskManager) (e x u p : Rat)
    (h : r.is_stopped = true) :
    (update_metrics r e x u p).is_stopped = true := by
  obtain ⟨r', hEq, hs⟩ := update_metrics_eq r e x u p
  rw [hEq]
  exact check_stop_sticky r' (hs.trans h)

theorem applyUpdates_sticky :
    ∀ (us : List (Rat × Rat × Rat × Rat)) (r : RiskManager), r.is_stopped = true →
      (applyUpdates r us).is_stopped = true := by
  intro us
  induction us with
  | nil => intro r h; exact h
  | cons u rest ih =>
    intro r h
    exact ih _ (update_metrics_sticky r u.1 u.2.1 u.2.2.1 u.2.2.2 h)

/-! ### Gate timing lemma -/

theorem criticalSection_begin_ge (st : GateState) (acq dur : Rat) (res : CallResult) :
    st.last_order_time + 1 / 2 ≤ (criticalSection st acq dur res).begin_call := by
  unfold criticalSection
  cases res <;> dsimp only [] <;> split_ifs with h <;> linarith

/-! ### Retry loop lemmas -/

theorem isNonceError_invalid_nonce : isNonceError "invalid nonce" = true := by decide

theorem isNonceError_boom : isNonceError "boom" = false := by decide

theorem retryFromAttempt_attempts_le (base : Rat) (k : Nat) :
    ∀ (outs : List ExchangeOutcome) (a : Nat),
      (retryFromAttempt base k outs a).attempts ≤ outs.length := by
  intro outs
  induction outs with
  | nil => intro a; simp [retryFromAttempt]
  | cons o rest ih =>
    intro a
    cases o with
    | success tx => simp [retryFromAttempt]
    | rejected msg => simp [retryFromAttempt]
    | empty => simp [retryFromAttempt]
    | raised err =>
      simp only [retryFromAttempt, List.length_cons]
      split_ifs with h
      · exact Nat.succ_le_succ (ih (a + 1))
      · simp

/-! ### Claim theorems -/

/-- C1: at a concrete long position (market 0, side buy), the reduce-only
market close submitted by `shutdown` carries the position's OWN side (buy),
not the opposite side required to flatten it: the close side computed in the
source (`closeSideFor`, which is sell here) is discarded, and buy ≠ sell.
This evaluates the code at the failing input of the claim. -/
theorem C1_shutdown_close_side :
    (shutdownCloseRequests [⟨0, OrderSide.buy, 1 / 100, 3400, 0, 0, none⟩]).map
        MarketOrderRequest.side = [OrderSide.buy] ∧
    (shutdownCloseRequests [⟨0, OrderSide.buy, 1 / 100, 3400, 0, 0, none⟩]).map
        MarketOrderRequest.reduce_only = [true] ∧
    closeSideFor ⟨0, OrderSide.buy, 1 / 100, 3400, 0, 0, none⟩ = OrderSide.sell ∧
    OrderSide.buy ≠ OrderSide.sell := by
  refine ⟨?_, ?_, ?_, ?_⟩ <;> simp [shutdownCloseRequests, closeSideFor]

/-- C6: with initial capital $100 and max-loss $10, equity updates
100 → 95 → 89 leave trading allowed, allowed, halted, and the recorded stop
reason is the max-loss condition citing the $11 cumulative loss against the
$10 limit. -/
theorem C6_max_loss_scenario :
    is_trading_allowed
      (update_metrics (initRiskManager defaultTradingConfig 100) 100 0 0 0) = true ∧
    is_trading_allowed
      (update_metrics (update_metrics (initRiskManager defaultTradingConfig 100)
        100 0 0 0) 95 0 0 0) = true ∧
    is_trading_allowed
      (update_metrics (update_metrics (update_metrics
        (initRiskManager defaultTradingConfig 100) 100 0 0 0) 95 0 0 0)
        89 0 0 0) = false ∧
    (update_metrics (update_metrics (update_metrics
        (initRiskManager defaultTradingConfig 100) 100 0 0 0) 95 0 0 0)
        89 0 0 0).stop_reason = some (StopReason.maxLoss 11 10) := by
  norm_num [initRiskManager, defaultTradingConfig, update_metrics,
    check_stop_conditions, is_trading_allowed]

/-- C7 counterexample: with equity $1000, exposure 0, default leverage 2 and
the default max_position_usd of $25, the code returns 25 (the cap divided by
price) while the claim's formula — (equity − exposure) × leverage × 0.5 / price
without the cap — gives 1000. -/
theorem C7_counterexample :
    calculate_safe_size (initRiskManager defaultTradingConfig 1000) 1 "buy" = 25 ∧
    claimedSafeSize (initRiskManager defaultTradingConfig 1000) 1 = 1000 ∧
    (25 : Rat) ≠ 1000 := by
  norm_num [calculate_safe_size, claimedSafeSize, initRiskManager,
    defaultTradingConfig, quantize4, roundHalfEven]

/-- C7 amended: for price > 0 in a non-halted state, calculate_safe_size
returns min(max_position_usd, (equity − exposure) × default leverage × 0.5)
divided by price, quantized to 4 decimal places, and zero when that raw size
is below the minimum viable size 0.0001. -/
theorem C7_safe_size_formula (r : RiskManager) (price : Rat) (side : String)
    (hstop : r.is_stopped = false) (hp : 0 < price) :
    calculate_safe_size r price side =
      (if (min r.config.max_position_usd
            ((r.metrics.total_equity - r.metrics.total_exposure) *
              r.config.default_leverage * (1 / 2))) / price < 1 / 10000 then 0
       else quantize4 ((min r.config.max_position_usd
            ((r.metrics.total_equity - r.metrics.total_exposure) *
              r.config.default_leverage * (1 / 2))) / price)) := by
  unfold calculate_safe_size
  rw [if_neg (by simp only [hstop]; simp [not_le.mpr hp])]

/-- C7 witness: the amended formula evaluated at a concrete fresh manager
(equity $100, exposure 0) and price $10. -/
theorem C7_safe_size_formula_witness :
    calculate_safe_size (initRiskManager defaultTradingConfig 100) 10 "buy" =
      (if (min (initRiskManager defaultTradingConfig 100).config.max_position_usd
            (((initRiskManager defaultTradingConfig 100).metrics.total_equity -
              (initRiskManager defaultTradingConfig 100).metrics.total_exposure) *
              (initRiskManager defaultTradingConfig 100).config.default_leverage *
              (1 / 2))) / 10 < 1 / 10000 then 0
       else quantize4 ((min (initRiskManager defaultTradingConfig 100).config.max_position_usd
            (((initRiskManager defaultTradingConfig 100).metrics.total_equity -
              (initRiskManager defaultTradingConfig 100).metrics.total_exposure) *
              (initRiskManager defaultTradingConfig 100).config.default_leverage *
              (1 / 2))) / 10)) :=
  C7_safe_size_formula (initRiskManager defaultTradingConfig 100) 10 "buy" rfl
    (by norm_num)

/-- C3 counterexample: with the interval gate at last-order-time 0, an
attempt whose exchange call begins at t = 0.5 and raises after 0.1s performs
zero updates of the last-order-time (the claim says exactly one per attempt,
failed or not); the next submission then begins its call 0.1s after the
first began, under the claimed 0.5s minimum spacing. -/
theorem C3_counterexample :
    (criticalSection ⟨0⟩ (1 / 2) (1 / 10) CallResult.raised).updates = 0 ∧
    (criticalSection (criticalSection ⟨0⟩ (1 / 2) (1 / 10) CallResult.raised).state
        (3 / 5) (1 / 10) CallResult.returned).begin_call -
      (criticalSection ⟨0⟩ (1 / 2) (1 / 10) CallResult.raised).begin_call = 1 / 10 ∧
    ¬ ((1 / 2 : Rat) ≤ 1 / 10) := by
  norm_num [criticalSection]

/-- C3 amended: the last-order-time is written exactly once per attempt whose
exchange call returns and zero times for an attempt whose call raises (the
write sits after the call, inside the critical section); consequently, when
the earlier submission's call returned, any later submission begins its
exchange call at least 500ms after the earlier one began. -/
theorem C3_gate_spacing (s : GateState) (acq₁ dur₁ acq₂ dur₂ : Rat)
    (res₂ : CallResult) (hdur : 0 ≤ dur₁) :
    (criticalSection s acq₁ dur₁ CallResult.returned).updates = 1 ∧
    (criticalSection s acq₁ dur₁ CallResult.raised).updates = 0 ∧
    (criticalSection s acq₁ dur₁ CallResult.returned).begin_call + 1 / 2 ≤
      (criticalSection (criticalSection s acq₁ dur₁ CallResult.returned).state
        acq₂ dur₂ res₂).begin_call := by
  refine ⟨rfl, rfl, ?_⟩
  have h1 : (criticalSection s acq₁ dur₁ CallResult.returned).state.last_order_time =
      (criticalSection s acq₁ dur₁ CallResult.returned).begin_call + dur₁ := rfl
  have h2 := criticalSection_begin_ge
    (criticalSection s acq₁ dur₁ CallResult.returned).state acq₂ dur₂ res₂
  rw [h1] at h2
  linarith

/-- C3 witness: the amended statement at a concrete pair of submissions. -/
theorem C3_gate_spacing_witness :
    (criticalSection ⟨0⟩ 1 (1 / 10) CallResult.returned).updates = 1 ∧
    (criticalSection ⟨0⟩ 1 (1 / 10) CallResult.raised).updates = 0 ∧
    (criticalSection ⟨0⟩ 1 (1 / 10) CallResult.returned).begin_call + 1 / 2 ≤
      (criticalSection (criticalSection ⟨0⟩ 1 (1 / 10) CallResult.returned).state
        2 0 CallResult.returned).begin_call :=
  C3_gate_spacing ⟨0⟩ 1 (1 / 10) 2 0 CallResult.returned (by norm_num)

/-- C4 counterexample: a first-attempt failure that is not an ordering
conflict makes create_limit_order return None (`Except.ok none`) after one
attempt — it is swallowed, not propagated to the caller as an exception
(`Except.error`). -/
theorem C4_counterexample :
    create_limit_order_run [ExchangeOutcome.raised "boom"] =
      ⟨Except.ok none, 1, []⟩ ∧
    (Except.ok none : Except String (Option String)) ≠ Except.error "boom" := by
  constructor
  · simp [create_limit_order_run, retryFromAttempt, isNonceError_boom]
  · simp

/-- C4 amended: a limit submission makes at most 3 attempts and a market
submission at most 5; a first-attempt failure that is not an ordering
conflict ends the submission at once with no retry, returning None rather
than raising; on repeated nonce conflicts the limit path sleeps 1·1, 1·2
seconds across its 3 attempts and the market path sleeps 1.5·1 … 1.5·4
seconds across its 5 attempts, then returns None. -/
theorem C4_retry_policy (outs : List ExchangeOutcome) (e : String)
    (hne : isNonceError e = false) :
    (create_limit_order_run outs).attempts ≤ 3 ∧
    (create_market_order_run outs).attempts ≤ 5 ∧
    create_limit_order_run (ExchangeOutcome.raised e :: outs) =
      ⟨Except.ok none, 1, []⟩ ∧
    create_market_order_run (ExchangeOutcome.raised e :: outs) =
      ⟨Except.ok none, 1, []⟩ ∧
    create_limit_order_run (List.replicate 3 (ExchangeOutcome.raised "invalid nonce")) =
      ⟨Except.ok none, 3, [1, 2]⟩ ∧
    create_market_order_run (List.replicate 5 (ExchangeOutcome.raised "invalid nonce")) =
      ⟨Except.ok none, 5, [3 / 2, 3, 9 / 2, 6]⟩ := by
  refine ⟨?_, ?_, ?_, ?_, ?_, ?_⟩
  · exact le_trans (retryFromAttempt_attempts_le 1 2 (outs.take 3) 0)
      (List.length_take_le 3 outs)
  · exact le_trans (retryFromAttempt_attempts_le (3 / 2) 4 (outs.take 5) 0)
      (List.length_take_le 5 outs)
  · simp [create_limit_order_run, retryFromAttempt, hne]
  · simp [create_market_order_run, retryFromAttempt, hne]
  · norm_num [create_limit_order_run, retryFromAttempt, isNonceError_invalid_nonce,
      List.replicate]
  · norm_num [create_market_order_run, retryFromAttempt, isNonceError_invalid_nonce,
      List.replicate]

/-- C4 witness: the amended statement applied at a concrete non-nonce error
and an empty outcome trace. -/
theorem C4_retry_policy_witness :
    isNonceError "boom" = false ∧ (create_limit_order_run []).attempts ≤ 3 ∧
    create_market_order_run [ExchangeOutcome.raised "boom"] =
      ⟨Except.ok none, 1, []⟩ :=
  ⟨isNonceError_boom, (C4_retry_policy [] "boom" isNonceError_boom).1,
    (C4_retry_policy [] "boom" isNonceError_boom).2.2.2.1⟩

/-! ### Cooldown description lemmas -/

theorem is_enabled_cooldown (cfg : TradingConfig) (s : StrategyState)
    (now t0 : Rat) (hen : s.enabled = true) (hcool : s.in_cooldown = true)
    (hu : s.cooldown_until = some t0) :
    is_enabled cfg s now =
      if cfg.cooldown_after_loss_seconds ≤ now - t0 then
        (true, { s with in_cooldown := false, consecutive_losses := 0 })
      else (false, s) := by
  unfold is_enabled
  rw [hen, hcool, hu]
  simp [ge_iff_le]

/-! ### record_trade_result description lemmas -/

theorem record_trade_result_pos (cfg : TradingConfig) (s : StrategyState)
    (pnl now : Rat) (h : pnl > 0) :
    record_trade_result cfg s pnl now =
      { s with total_pnl := s.total_pnl + pnl, wins := s.wins + 1,
               consecutive_losses := 0 } := by
  unfold record_trade_result
  rw [if_pos h]

theorem record_trade_result_nonpos_cool (cfg : TradingConfig) (s : StrategyState)
    (pnl now : Rat) (h : ¬ pnl > 0)
    (hth : s.consecutive_losses + 1 ≥ cfg.max_consecutive_losses) :
    record_trade_result cfg s pnl now =
      { s with total_pnl := s.total_pnl + pnl, losses := s.losses + 1,
               consecutive_losses := s.consecutive_losses + 1,
               in_cooldown := true, cooldown_until := some now } := by
  unfold record_trade_result
  rw [if_neg h, if_pos hth]

theorem record_trade_result_nonpos_nocool (cfg : TradingConfig) (s : StrategyState)
    (pnl now : Rat) (h : ¬ pnl > 0)
    (hth : ¬ s.consecutive_losses + 1 ≥ cfg.max_consecutive_losses) :
    record_trade_result cfg s pnl now =
      { s with total_pnl := s.total_pnl + pnl, losses := s.losses + 1,
               consecutive_losses := s.consecutive_losses + 1 } := by
  unfold record_trade_result
  rw [if_neg h, if_neg hth]

/-- C2 counterexample: one reconciliation pass whose exchange data reports
an unknown order with size 1 and filled_size 2 leaves the ledger holding an
order with filled_size 2 > size 1 — sync_with_exchange copies the reported
filled_size without clamping, so the invariant does not survive arbitrary
exchange-reported data. -/
theorem C2_counterexample :
    (lookupOrder (syncOrders [] [⟨"A", 0, "buy", 10, 1, 2⟩]) "A").map
        Order.filled_size = some 2 ∧
    (lookupOrder (syncOrders [] [⟨"A", 0, "buy", 10, 1, 2⟩]) "A").map
        Order.size = some 1 ∧
    ¬ ((2 : Rat) ≤ 1) := by
  norm_num [syncOrders, applyOrderData, lookupOrder, orderFromData, strLower,
    mapVals, exchangeIds, finalizeOrder, Order.is_active]

/-- C2 amended: filled_size ≤ size holds for every ledger order after each
reconciliation pass, provided every pass reports distinct order ids and
each reported filled_size does not exceed the size the order is recorded
against (the reported size for a previously unknown id, the ledger-stored
size for a known id). The conclusion covers every prefix ps₁ of the pass
sequence, i.e. the invariant holds after each pass. -/
theorem C2_filled_le_size (m : List (String × Order))
    (ps ps₁ ps₂ : List (List OrderData)) (hm : ledgerInv m)
    (hsplit : ps = ps₁ ++ ps₂) (hps : passesOK m ps) :
    ledgerInv (syncAll m ps₁) :=
  ledgerInv_syncAll ps₁ m hm (passesOK_append ps₁ ps₂ m (hsplit ▸ hps))

/-- C2 witness: a pass with consistent data (filled 1 ≤ size 2) starting
from the empty ledger keeps the invariant. -/
theorem C2_filled_le_size_witness :
    ledgerInv (syncAll [] [[⟨"A", 0, "buy", 10, 2, 1⟩]]) :=
  C2_filled_le_size [] [[⟨"A", 0, "buy", 10, 2, 1⟩]] [[⟨"A", 0, "buy", 10, 2, 1⟩]]
    [] (fun id o h => by simp [lookupOrder] at h) rfl
    ⟨⟨by simp, by
      intro d hd
      simp only [List.mem_singleton] at hd
      subst hd
      norm_num [datumOK, lookupOrder]⟩, trivial⟩

/-- C8: a locally-tracked order in an active status with non-negative
recorded fill that is absent from the exchange's reported open-order
listing is finalized by the pass to `filled` when its filled_size is
nonzero and to `cancelled` otherwise; and, concretely, a first reconcile
inserting an unknown order (market 0, filled_size 0) leaves exactly that
order in `open` status, after which a second reconcile with the order
absent moves it to `cancelled`. -/
theorem C8_absent_active_order_finalized (m : List (String × Order))
    (data : List OrderData) (id : String) (o : Order)
    (hfound : lookupOrder m id = some o) (hact : o.is_active = true)
    (habs : id ∉ exchangeIds data) (hnn : 0 ≤ o.filled_size) :
    lookupOrder (syncOrders m data) id =
      some { o with status := if o.filled_size ≠ 0 then OrderStatus.filled
                              else OrderStatus.cancelled } ∧
    syncOrders [] [⟨"77", 0, "buy", 10, 1, 0⟩] =
      [("77", orderFromData ⟨"77", 0, "buy", 10, 1, 0⟩)] ∧
    (orderFromData ⟨"77", 0, "buy", 10, 1, 0⟩).status = OrderStatus.opened ∧
    lookupOrder (syncOrders (syncOrders [] [⟨"77", 0, "buy", 10, 1, 0⟩]) []) "77" =
      some { orderFromData ⟨"77", 0, "buy", 10, 1, 0⟩ with
               status := OrderStatus.cancelled } := by
  refine ⟨?_, ?_, rfl, ?_⟩
  · unfold syncOrders
    rw [lookup_mapVals, lookup_foldl_applyOrderData_not_reported data m id
        (fun d hd hEq => habs (hEq ▸ List.mem_map_of_mem OrderData.order_id hd)),
      hfound]
    simp only [Option.map_some', Option.some.injEq]
    unfold finalizeOrder
    rw [if_pos ⟨hact, habs⟩]
    rcases lt_or_eq_of_le hnn with hpos | hzero
    · rw [if_pos hpos, if_pos (ne_of_gt hpos)]
    · rw [if_neg (by rw [← hzero]; exact lt_irrefl 0),
        if_neg (by rw [← hzero]; simp)]
  · norm_num [syncOrders, applyOrderData, lookupOrder, orderFromData, strLower,
      mapVals, exchangeIds, finalizeOrder, Order.is_active]
  · norm_num [syncOrders, applyOrderData, lookupOrder, orderFromData, strLower,
      mapVals, exchangeIds, finalizeOrder, Order.is_active]

/-- C8 witness: a reconciliation pass with empty exchange data finalizes a
tracked open order with fill 1/2 to `filled`. -/
theorem C8_absent_active_order_finalized_witness :
    (0 : Rat) ≤ zOrder.filled_size ∧
    lookupOrder (syncOrders [("Z", zOrder)] []) "Z" =
      some { zOrder with status := OrderStatus.filled } := by
  constructor
  · norm_num [zOrder]
  · have h := (C8_absent_active_order_finalized [("Z", zOrder)] [] "Z" zOrder
      (by simp [lookupOrder]) (by decide) (by simp [exchangeIds])
      (by norm_num [zOrder])).1
    rw [h]
    norm_num [zOrder]

/-- C5: once an update_metrics call records a max drawdown of at least 50%,
is_trading_allowed is false after every subsequent update_metrics call,
whatever recovery those updates report, and only resume_trading makes
is_trading_allowed true again (it always does). -/
theorem C5_drawdown_halt_latches (r : RiskManager) (e x u p : Rat)
    (us : List (Rat × Rat × Rat × Rat))
    (h : 50 ≤ (update_metrics r e x u p).metrics.max_drawdown) :
    is_trading_allowed (applyUpdates (update_metrics r e x u p) us) = false ∧
    ∀ r' : RiskManager, is_trading_allowed (resume_trading r') = true := by
  constructor
  · have hs := applyUpdates_sticky us _ (update_metrics_stopped_of_drawdown r e x u p h)
    simp [is_trading_allowed, hs]
  · intro r'
    unfold resume_trading is_trading_allowed
    split_ifs with h' <;> simp_all

/-- C5 witness: a $100 account whose equity drops to $40 records a 60%
drawdown; trading stays blocked even after a later update showing full
recovery to $100. -/
theorem C5_drawdown_halt_latches_witness :
    50 ≤ (update_metrics (initRiskManager defaultTradingConfig 100) 40 0 0 0).metrics.max_drawdown ∧
    is_trading_allowed (applyUpdates
      (update_metrics (initRiskManager defaultTradingConfig 100) 40 0 0 0)
      [(100, 0, 0, 0)]) = false := by
  have hdd : 50 ≤ (update_metrics (initRiskManager defaultTradingConfig 100) 40 0 0 0).metrics.max_drawdown := by
    norm_num [update_metrics, check_stop_conditions, initRiskManager,
      defaultTradingConfig]
  exact ⟨hdd, (C5_drawdown_halt_latches (initRiskManager defaultTradingConfig 100)
    40 0 0 0 [(100, 0, 0, 0)] hdd).1⟩

/-- C9: with a positive cooldown duration, the Nth consecutive recorded loss
(N = max_consecutive_losses) disables the strategy at once; is_enabled
returns true exactly when the cooldown duration has elapsed since the
cooldown entry time, the consecutive-loss counter is 0 in the state produced
by that first true-returning call, and a false-returning call leaves the
state unchanged. -/
theorem C9_cooldown (cfg : TradingConfig) (s : StrategyState) (pnl t0 t : Rat)
    (hen : s.enabled = true) (hpnl : ¬ pnl > 0)
    (hc : s.consecutive_losses + 1 = cfg.max_consecutive_losses)
    (hD : 0 < cfg.cooldown_after_loss_seconds) :
    (is_enabled cfg (record_trade_result cfg s pnl t0) t0).1 = false ∧
    ((is_enabled cfg (record_trade_result cfg s pnl t0) t).1 = true ↔
      cfg.cooldown_after_loss_seconds ≤ t - t0) ∧
    (cfg.cooldown_after_loss_seconds ≤ t - t0 →
      ((is_enabled cfg (record_trade_result cfg s pnl t0) t).2).consecutive_losses = 0) ∧
    ((is_enabled cfg (record_trade_result cfg s pnl t0) t).1 = false →
      (is_enabled cfg (record_trade_result cfg s pnl t0) t).2 =
        record_trade_result cfg s pnl t0) := by
  have hrec : record_trade_result cfg s pnl t0 =
      { s with total_pnl := s.total_pnl + pnl
               losses := s.losses + 1
               consecutive_losses := s.consecutive_losses + 1
               in_cooldown := true
               cooldown_until := some t0 } := by
    unfold record_trade_result
    rw [if_neg hpnl, if_pos hc.ge]
  have hdesc : ∀ tt : Rat, is_enabled cfg (record_trade_result cfg s pnl t0) tt =
      if cfg.cooldown_after_loss_seconds ≤ tt - t0 then
        (true, { record_trade_result cfg s pnl t0 with
                   in_cooldown := false, consecutive_losses := 0 })
      else (false, record_trade_result cfg s pnl t0) := by
    intro tt
    apply is_enabled_cooldown
    · rw [hrec]; exact hen
    · rw [hrec]
    · rw [hrec]
  refine ⟨?_, ?_, ?_, ?_⟩
  · rw [hdesc t0, if_neg (show ¬ cfg.cooldown_after_loss_seconds ≤ t0 - t0 by
      rw [sub_self]; exact not_le.mpr hD)]
  · rw [hdesc t]
    split_ifs with hEl <;> simp [hEl]
  · intro hEl
    rw [hdesc t, if_pos hEl]
  · intro hFalse
    rw [hdesc t] at hFalse ⊢
    split_ifs at hFalse ⊢
    rfl

/-- C9 witness: default config (threshold 3, cooldown 60s), a strategy with
2 consecutive losses takes a third loss at t = 0: disabled at t = 0, enabled
again at t = 60 with the loss counter reset to 0. -/
theorem C9_cooldown_witness :
    (is_enabled defaultTradingConfig
      (record_trade_result defaultTradingConfig
        ⟨true, 5, 1, 4, -2, 2, false, none⟩ (-1) 0) 0).1 = false ∧
    (is_enabled defaultTradingConfig
      (record_trade_result defaultTradingConfig
        ⟨true, 5, 1, 4, -2, 2, false, none⟩ (-1) 0) 60).1 = true ∧
    ((is_enabled defaultTradingConfig
      (record_trade_result defaultTradingConfig
        ⟨true, 5, 1, 4, -2, 2, false, none⟩ (-1) 0) 60).2).consecutive_losses = 0 := by
  have h := C9_cooldown defaultTradingConfig ⟨true, 5, 1, 4, -2, 2, false, none⟩
    (-1) 0 60 rfl (by norm_num) (by norm_num [defaultTradingConfig])
    (by norm_num [defaultTradingConfig])
  exact ⟨h.1, h.2.1.mpr (by norm_num [defaultTradingConfig]),
    h.2.2.1 (by norm_num [defaultTradingConfig])⟩

/-- C10: record_trade_result counts a pnl of exactly zero as a loss — it
increments losses and the consecutive-loss counter, leaves wins unchanged,
and can push the strategy into cooldown when the threshold is reached; only
a strictly positive pnl increments wins and resets the consecutive-loss
counter to zero, and every non-positive pnl is counted as a loss. -/
theorem C10_zero_pnl_is_loss (cfg : TradingConfig) (s : StrategyState) (now : Rat) :
    ((record_trade_result cfg s 0 now).losses = s.losses + 1 ∧
     (record_trade_result cfg s 0 now).consecutive_losses = s.consecutive_losses + 1 ∧
     (record_trade_result cfg s 0 now).wins = s.wins) ∧
    (cfg.max_consecutive_losses ≤ s.consecutive_losses + 1 →
      (record_trade_result cfg s 0 now).in_cooldown = true) ∧
    (∀ pnl : Rat, 0 < pnl →
      (record_trade_result cfg s pnl now).wins = s.wins + 1 ∧
      (record_trade_result cfg s pnl now).consecutive_losses = 0) ∧
    (∀ pnl : Rat, pnl ≤ 0 →
      (record_trade_result cfg s pnl now).wins = s.wins ∧
      (record_trade_result cfg s pnl now).losses = s.losses + 1 ∧
      (record_trade_result cfg s pnl now).consecutive_losses = s.consecutive_losses + 1) := by
  refine ⟨?_, ?_, ?_, ?_⟩
  · by_cases hth : cfg.max_consecutive_losses ≤ s.consecutive_losses + 1
    · rw [record_trade_result_nonpos_cool cfg s 0 now (lt_irrefl 0) hth]
      exact ⟨rfl, rfl, rfl⟩
    · rw [record_trade_result_nonpos_nocool cfg s 0 now (lt_irrefl 0) hth]
      exact ⟨rfl, rfl, rfl⟩
  · intro hth
    rw [record_trade_result_nonpos_cool cfg s 0 now (lt_irrefl 0) hth]
  · intro pnl hpos
    rw [record_trade_result_pos cfg s pnl now hpos]
    exact ⟨rfl, rfl⟩
  · intro pnl hle
    by_cases hth : cfg.max_consecutive_losses ≤ s.consecutive_losses + 1
    · rw [record_trade_result_nonpos_cool cfg s pnl now (not_lt.mpr hle) hth]
      exact ⟨rfl, rfl, rfl⟩
    · rw [record_trade_result_nonpos_nocool cfg s pnl now (not_lt.mpr hle) hth]
      exact ⟨rfl, rfl, rfl⟩

/-- C10 witness: concrete zero-pnl and positive-pnl trades on a strategy
with 1 consecutive loss. -/
theorem C10_zero_pnl_is_loss_witness :
    (record_trade_result defaultTradingConfig
      ⟨true, 3, 1, 1, 0, 1, false, none⟩ 0 0).losses = 2 ∧
    (record_trade_result defaultTradingConfig
      ⟨true, 3, 1, 1, 0, 1, false, none⟩ 0 0).consecutive_losses = 2 ∧
    (record_trade_result defaultTradingConfig
      ⟨true, 3, 1, 1, 0, 1, false, none⟩ 1 0).consecutive_losses = 0 := by
  have h := C10_zero_pnl_is_loss defaultTradingConfig
    ⟨true, 3, 1, 1, 0, 1, false, none⟩ 0
  exact ⟨h.1.1, h.1.2.1, (h.2.2.1 1 (by norm_num)).2⟩

end LighterScalper
